import Mathlib

/-!
Verification of the procedural mosaic renderer (PsyduckCanvas).

Shallow embedding of the rendering pipeline of src/components/PsyduckCanvas.jsx:
the deterministic hash, the alpha-mask derivation, the turbulence-field
packing and sampling, the energy-mask compositor, the region classifier,
the final-composite pass list, the crossfade, and the energy render loop.

JavaScript numeric conventions used throughout:
- `x | 0` on a nonnegative-range value truncates toward zero (jsTrunc);
- `Math.round x` is `floor (x + 1/2)` (jsRound);
- 32-bit operations (`Math.imul`, xor, `>>>`) act on bit patterns, embedded
  as natural numbers below 2^32;
- where a computation is float-sensitive (the BT.709 luminance), IEEE-754
  double rounding is modelled explicitly (fl53).
-/

/-- JS `x | 0` for values in int32 range: truncation toward zero. -/
def jsTrunc (q : ℚ) : ℤ := if q < 0 then -⌊-q⌋ else ⌊q⌋

/-- JS `Math.round`: round half toward positive infinity. -/
def jsRound (q : ℚ) : ℤ := ⌊q + 1 / 2⌋

/-- `clamp01` from the source: `x < 0 ? 0 : x > 1 ? 1 : x`. -/
def clamp01 (x : ℚ) : ℚ := if x < 0 then 0 else if x > 1 then 1 else x

/- ------------------------- Noise engine: hash2i ------------------------- -/

/-- Bit pattern of a JS number used as a 32-bit operand (`ToInt32`/`ToUint32`
agree on patterns): the integer reduced mod 2^32. -/
def toU32 (x : ℤ) : ℕ := (x % 4294967296).toNat

/-- `Math.imul`: 32-bit multiplication, as a bit pattern. -/
def imul32 (a b : ℕ) : ℕ := a * b % 4294967296

/-- The 32-bit mixing pipeline of `hash2i` before the final division:
`n = (imul(x|0, 374761393) ^ imul(y|0, 668265263) ^ seed) | 0`,
`n = imul(n ^ (n >>> 13), 1274126177)`, `n = (n ^ (n >>> 16)) >>> 0`. -/
def hash2iU32 (x y seed : ℤ) : ℕ :=
  let n0 : ℕ := (imul32 (toU32 x) 374761393) ^^^ (imul32 (toU32 y) 668265263) ^^^ (toU32 seed)
  let n1 : ℕ := imul32 (n0 ^^^ (n0 >>> 13)) 1274126177
  n1 ^^^ (n1 >>> 16)

/-- `hash2i (x, y, seed)` from the source: the mixed 32-bit value divided by
4294967295 (= 2^32 - 1). -/
def hash2i (x y seed : ℤ) : ℚ :=
  (hash2iU32 x y seed : ℚ) / 4294967295

/- --------------------- Mask pipeline: bitmapToAlphaMaskCanvas ------------ -/

/-- Binary exponent ⌊log2 q⌋ of a positive rational, by bounded search over
the exponent range [-30, 30] (amply covering the values arising in the
luminance computation). Structural recursion so that proofs can evaluate it. -/
def dExpAux : ℕ → ℚ → ℤ → ℤ
  | 0, _, acc => acc
  | n + 1, q, acc => if (2 : ℚ) ^ (acc + 1) ≤ q then dExpAux n q (acc + 1) else acc

/-- Largest e ∈ [-30, 30] with 2^e ≤ q (for q in the covered range). -/
def dExp (q : ℚ) : ℤ := dExpAux 60 q (-30)

/-- Rounding of a nonnegative rational to the nearest IEEE-754 binary64 value
(53-bit significand), halves rounded up. Faithful for the values arising
here: all are in the normal range and no rounding step hits an exact tie
(checked exhaustively for the inputs used in the theorems below). -/
def fl53 (q : ℚ) : ℚ :=
  if q ≤ 0 then 0
  else (⌊q * (2 : ℚ) ^ (52 - dExp q) + 1 / 2⌋ : ℚ) * (2 : ℚ) ^ (dExp q - 52)

/-- The IEEE-754 binary64 value of the source literal `0.2126`. -/
def c2126 : ℚ := 1914930561557935 / 9007199254740992

/-- The IEEE-754 binary64 value of the source literal `0.7152`. -/
def c7152 : ℚ := 6441948906990757 / 9007199254740992

/-- The IEEE-754 binary64 value of the source literal `0.0722`. -/
def c0722 : ℚ := 5202558289538397 / 72057594037927936

/-- The luminance `0.2126 * r + 0.7152 * g + 0.0722 * b` as the source
computes it: in IEEE-754 binary64 arithmetic, each product and each
(left-associated) sum rounded. -/
def jsLum (r g b : ℕ) : ℚ :=
  fl53 (fl53 (fl53 (c2126 * r) + fl53 (c7152 * g)) + fl53 (c0722 * b))

/-- One pixel of `bitmapToAlphaMaskCanvas`: `lum = (0.2126*r + 0.7152*g +
0.0722*b) | 0`, `a = lum <= threshold ? 0 : lum`, color channels zeroed. -/
def bitmapToAlphaMaskPixel (r g b threshold : ℕ) : ℤ × ℤ × ℤ × ℤ :=
  let lum : ℤ := jsTrunc (jsLum r g b)
  (0, 0, 0, if lum ≤ (threshold : ℤ) then 0 else lum)

/- ------------------- Render phase controller: crossfade ------------------ -/

/-- A premultiplied-alpha RGBA pixel with rational channels. -/
structure Px where
  r : ℚ
  g : ℚ
  b : ℚ
  a : ℚ
  deriving DecidableEq

/-- `ctx.drawImage` of a source pixel onto a destination pixel under
`globalAlpha = ga` with the default source-over compositing, in
premultiplied form: `out = ga*src + dst*(1 - ga*src.a)`. -/
def drawImageOver (dst src : Px) (ga : ℚ) : Px :=
  ⟨ga * src.r + dst.r * (1 - ga * src.a),
   ga * src.g + dst.g * (1 - ga * src.a),
   ga * src.b + dst.b * (1 - ga * src.a),
   ga * src.a + dst.a * (1 - ga * src.a)⟩

/-- The crossfade duration from the source: `const DURATION = 380`. -/
def fadeDURATION : ℚ := 380

/-- Normalized crossfade time:
`t = Math.min(1, (performance.now() - start) / DURATION)`. -/
def fadeT (now start : ℚ) : ℚ := min 1 ((now - start) / fadeDURATION)

/-- One displayed pixel of the `fade` frame from the source: the canvas is
cleared, the Preview buffer is drawn with `globalAlpha = 1 - t * t`, then
the Final buffer with `globalAlpha = t * t`. -/
def fadeFrame (prev fin : Px) (now start : ℚ) : Px :=
  drawImageOver
    (drawImageOver ⟨0, 0, 0, 0⟩ prev (1 - fadeT now start * fadeT now start)) fin
    (fadeT now start * fadeT now start)

/-- The same frame as the claim describes it: Preview drawn with alpha
(1-t)², Final with alpha t². Stated only to be compared with `fadeFrame`. -/
def specFadeFrame (prev fin : Px) (now start : ℚ) : Px :=
  drawImageOver
    (drawImageOver ⟨0, 0, 0, 0⟩ prev ((1 - fadeT now start) * (1 - fadeT now start))) fin
    (fadeT now start * fadeT now start)

/- ------------- Region classifier: insideFactory and the bucket loop ------ -/

/-- The point-in-mask test produced by `insideFactory`: round the
coordinates, clamp into `[0, width-1] × [0, height-1]`, and test whether
the nearest pixel of the RGBA byte buffer `data` (alpha at index
`(yi * width + xi) * 4 + 3`) is positive. -/
def insideMask (data : ℤ → ℕ) (width height : ℕ) (x y : ℚ) : Bool :=
  let xi : ℤ := max 0 (min ((width : ℤ) - 1) (jsRound x))
  let yi : ℤ := max 0 (min ((height : ℤ) - 1) (jsRound y))
  decide (0 < data ((yi * width + xi) * 4 + 3))

/-- The five buckets a text tile can be classified into. -/
inductive Region
  | body
  | hair
  | headband
  | beak
  | feet
  deriving DecidableEq

/-- The final-stage classification loop for one text tile:
`bucket = "body"`, then hair, headband (only when active), beak, feet are
tested in that order and the first match wins. -/
def classifyTile (headbandActive : Bool) (hairData headbandData beakData feetData : ℤ → ℕ)
    (w h : ℕ) (x y : ℚ) : Region :=
  if insideMask hairData w h x y then .hair
  else if headbandActive && insideMask headbandData w h x y then .headband
  else if insideMask beakData w h x y then .beak
  else if insideMask feetData w h x y then .feet
  else .body

/- -------------------- Final composite: ordered pass list ----------------- -/

/-- The draw passes of the final-stage composition, named in source order. -/
inductive FinalPass
  | silhouetteFill
  | headbandUnderGlow
  | neonBody
  | neonBeak
  | neonFeet
  | neonHeadband
  | neonHair
  | staticOutlineGlow
  | eyesTopcoat
  | pupilsFill
  | nostrilsFill
  deriving DecidableEq

/-- `const energyActive = total >= CAP` (the activation-threshold check used
by both the final stage and the energy effect). -/
def energyActive (total CAP : ℕ) : Bool := decide (CAP ≤ total)

/-- The sequence of passes the final stage draws into the Final buffer,
in source order: translucent silhouette fill, headband under-glow (only
when active), neon passes for body/beak/feet (+ headband when active) and
hair, the static outline glow (only when an outline mask exists and
`!energyActive`), eyes topcoat, then pupils and nostrils. -/
def finalPasses (headbandActive outlinePresent : Bool) (total CAP : ℕ) : List FinalPass :=
  [FinalPass.silhouetteFill] ++
  (if headbandActive then [FinalPass.headbandUnderGlow] else []) ++
  [FinalPass.neonBody, FinalPass.neonBeak, FinalPass.neonFeet] ++
  (if headbandActive then [FinalPass.neonHeadband] else []) ++
  [FinalPass.neonHair] ++
  (if outlinePresent && !energyActive total CAP then [FinalPass.staticOutlineGlow] else []) ++
  [FinalPass.eyesTopcoat, FinalPass.pupilsFill, FinalPass.nostrilsFill]

/- ------------------ Energy working resolution (energyScale) --------------- -/

/-- `energyScale = Math.max(0.7, Math.min(1, 520 / maxDim))` with
`maxDim = Math.max(w, h)` the long edge of the plan resolution. -/
def energyScale (w h : ℕ) : ℚ := max (7 / 10) (min 1 (520 / ((max w h : ℕ) : ℚ)))

/-- `eW = Math.max(1, Math.round(w * energyScale))`. -/
def energyW (w h : ℕ) : ℤ := max 1 (jsRound (w * energyScale w h))

/-- `eH = Math.max(1, Math.round(h * energyScale))`. -/
def energyH (w h : ℕ) : ℤ := max 1 (jsRound (h * energyScale w h))

/- ------------- Saber energy: field sampling and mask compositor ---------- -/

/-- A decoded sample of the packed turbulence field: displacement components
(dx, dy) in [-1,1], spark and filament intensities in [0,1]. -/
structure SaberSample where
  dx : ℚ
  dy : ℚ
  spark : ℚ
  fil : ℚ
  deriving DecidableEq

/-- One channel of the bilinear read in `sampleSaberField`: the four lattice
bytes at channel offset `ch` weighted by the standard bilinear weights, all
divided by 255. `x0, y0` are floors of the scaled coordinates; `x1, y1`
clamp to `res - 1`. -/
def bilin (data : ℤ → ℕ) (res : ℕ) (u v : ℚ) (ch : ℕ) : ℚ :=
  let x := u * ((res : ℚ) - 1)
  let y := v * ((res : ℚ) - 1)
  let x0 : ℤ := ⌊x⌋
  let y0 : ℤ := ⌊y⌋
  let x1 : ℤ := min ((res : ℤ) - 1) (x0 + 1)
  let y1 : ℤ := min ((res : ℤ) - 1) (y0 + 1)
  let tx := x - (x0 : ℚ)
  let ty := y - (y0 : ℚ)
  ((data ((y0 * (res : ℤ) + x0) * 4 + (ch : ℤ)) : ℚ) * ((1 - tx) * (1 - ty)) +
   (data ((y0 * (res : ℤ) + x1) * 4 + (ch : ℤ)) : ℚ) * (tx * (1 - ty)) +
   (data ((y1 * (res : ℤ) + x0) * 4 + (ch : ℤ)) : ℚ) * ((1 - tx) * ty) +
   (data ((y1 * (res : ℤ) + x1) * 4 + (ch : ℤ)) : ℚ) * (tx * ty)) / 255

/-- `sampleSaberField` from the source: channels R,G decode to displacement
via `r * 2 - 1`; channel B is spark, channel A is filament. -/
def sampleSaberField (noiseData : ℤ → ℕ) (res : ℕ) (u v : ℚ) : SaberSample :=
  ⟨bilin noiseData res u v 0 * 2 - 1,
   bilin noiseData res u v 1 * 2 - 1,
   bilin noiseData res u v 2,
   bilin noiseData res u v 3⟩

/-- The clamped index of `sampleOutlineAlphaNearest` along one axis:
`x < 0 ? 0 : x > n - 1 ? n - 1 : x | 0`. -/
def outlineIdx (n : ℕ) (x : ℚ) : ℤ :=
  if x < 0 then 0 else if x > (n : ℚ) - 1 then (n : ℤ) - 1 else jsTrunc x

/-- `sampleOutlineAlphaNearest` from the source: clamp both coordinates into
the mask rectangle and read the alpha byte at `(yi * outW + xi) * 4 + 3`. -/
def sampleOutlineAlphaNearest (outData : ℤ → ℕ) (outW outH : ℕ) (x y : ℚ) : ℕ :=
  outData ((outlineIdx outH y * (outW : ℤ) + outlineIdx outW x) * 4 + 3)

/-- The ambient JS math primitives the per-pixel computation calls
(`Math.sin`, `Math.pow`); kept abstract, so the theorems hold for every
interpretation of them. -/
structure JsMath where
  sin : ℚ → ℚ
  pow : ℚ → ℚ → ℚ

/-- The outline alpha sampled by the energy-mask pixel (x, y) in
`renderSaberEnergyMask`: the sampling point is displaced by the field
vector scaled by `amp` plus the sinusoidal wave term, then rescaled from
energy space to outline space and read with nearest-neighbor clamping. -/
def energySampledAlpha (M : JsMath) (outData : ℤ → ℕ) (outW outH : ℕ)
    (nData : ℤ → ℕ) (nRes w h : ℕ) (tSec amp : ℚ) (x y : ℕ) : ℕ :=
  let invW : ℚ := 1 / max 1 ((w : ℚ) - 1)
  let invH : ℚ := 1 / max 1 ((h : ℚ) - 1)
  let v := (y : ℚ) * invH
  let wave := M.sin ((v * 14 + tSec * 3) * 1) * 0.55
  let u := (x : ℚ) * invW
  let field := sampleSaberField nData nRes u v
  let sx := (x : ℚ) + field.dx * amp + wave
  let sy := (y : ℚ) + field.dy * amp
  let ox := sx * ((outW : ℚ) / (w : ℚ))
  let oy := sy * ((outH : ℚ) / (h : ℚ))
  sampleOutlineAlphaNearest outData outW outH ox oy

/-- One pixel written by `renderSaberEnergyMask`: if the sampled outline
alpha is exactly 0 the pixel is fully transparent; otherwise the color is
fixed white and the alpha carries the computed intensity. -/
def energyMaskPixel (M : JsMath) (outData : ℤ → ℕ) (outW outH : ℕ)
    (nData : ℤ → ℕ) (nRes w h : ℕ) (tSec amp gain cut sharpPow : ℚ) (x y : ℕ) :
    ℤ × ℤ × ℤ × ℤ :=
  let oa := energySampledAlpha M outData outW outH nData nRes w h tSec amp x y
  if oa = 0 then (0, 0, 0, 0)
  else
    let crawl := 0.45 + 0.35 * M.sin (tSec * 2.8)
    let base : ℚ := (oa : ℚ) / 255
    let invW : ℚ := 1 / max 1 ((w : ℚ) - 1)
    let invH : ℚ := 1 / max 1 ((h : ℚ) - 1)
    let field := sampleSaberField nData nRes ((x : ℚ) * invW) ((y : ℚ) * invH)
    let strand := M.pow (clamp01 ((field.fil - cut) * 1.35)) sharpPow
    let spark := M.pow field.spark 1.25
    let hf := 0.82 + 0.18 * M.sin (tSec * 13 + ((x : ℚ) + (y : ℚ)) * 0.015 + crawl)
    let intensity := clamp01 (strand * 0.95 + spark * 0.8)
    let a := clamp01 (base * (0.14 + intensity) * gain * hf)
    (255, 255, 255, jsTrunc (a * 255))

/-- JS `Uint8ClampedArray` store of an integer: clamp into [0, 255]. -/
def clampByte (z : ℤ) : ℕ :=
  if z < 0 then 0 else if 255 < z then 255 else z.toNat

/-- The displacement packing of `renderSaberFields`:
`((dx * 0.5 + 0.5) * 255) | 0`, stored into `ImageData.data` (a
`Uint8ClampedArray`, which clamps out-of-range values). -/
def packDisp (c : ℚ) : ℕ := clampByte (jsTrunc ((c * (1 / 2) + 1 / 2) * 255))

/- ------------------- Energy effect: render-loop scheduling --------------- -/

/-- State of the energy render loop: how many frames have been drawn and
whether an animation callback is currently scheduled. -/
structure EnergyLoopState where
  frames : ℕ
  scheduled : Bool
  deriving DecidableEq

/-- Start of the energy effect, from the source: if `prefersReduced` holds,
`drawFrame` is called once and no callback is scheduled; otherwise no frame
is drawn yet and `requestAnimationFrame(tick)` schedules the first tick. -/
def energyEffectStart (prefersReduced : Bool) : EnergyLoopState :=
  if prefersReduced then { frames := 1, scheduled := false }
  else { frames := 0, scheduled := true }

/-- One animation callback boundary: if a callback is scheduled, `tick`
runs, draws a frame, and re-schedules itself; otherwise nothing happens. -/
def energyTick (s : EnergyLoopState) : EnergyLoopState :=
  if s.scheduled then { frames := s.frames + 1, scheduled := true } else s

/- ======================= end of definitions (noise) ===================== -/

theorem imul32_lt (a b : ℕ) : imul32 a b < 4294967296 :=
  Nat.mod_lt _ (by norm_num)

theorem shiftRight_le_self (n k : ℕ) : n >>> k ≤ n := by
  rw [Nat.shiftRight_eq_div_pow]
  exact Nat.div_le_self n (2 ^ k)

theorem hash2iU32_lt (x y seed : ℤ) : hash2iU32 x y seed < 4294967296 := by
  unfold hash2iU32
  have h1 : imul32 ((imul32 (toU32 x) 374761393) ^^^ (imul32 (toU32 y) 668265263) ^^^ (toU32 seed)
      ^^^ (((imul32 (toU32 x) 374761393) ^^^ (imul32 (toU32 y) 668265263) ^^^ (toU32 seed)) >>> 13))
      1274126177 < 4294967296 := imul32_lt _ _
  have hpow : (4294967296 : ℕ) = 2 ^ 32 := by norm_num
  rw [hpow] at h1 ⊢
  exact Nat.xor_lt_two_pow h1 (lt_of_le_of_lt (shiftRight_le_self _ 16) h1)

/-- C6: `hash2i` is pure and deterministic (identical inputs give identical
output), and its result lies in the closed interval [0,1]. The claim states
the half-open interval [0,1); the value 1 is in fact attained (see the
counterexample), matching the source comment "Deterministic hash → [0,1]",
so the amended range is the closed interval. -/
theorem hash2i_deterministic_and_in_unit (x y seed x' y' seed' : ℤ)
    (hx : x = x') (hy : y = y') (hs : seed = seed') :
    hash2i x y seed = hash2i x' y' seed' ∧
    0 ≤ hash2i x y seed ∧ hash2i x y seed ≤ 1 := by
  subst hx hy hs
  refine ⟨rfl, ?_, ?_⟩
  · unfold hash2i
    positivity
  · unfold hash2i
    rw [div_le_one (by norm_num)]
    have h := hash2iU32_lt x y seed
    exact_mod_cast Nat.le_of_lt_succ (by exact_mod_cast h)

/-- C6 witness: the theorem applied at the concrete input (3, -7, 1337). -/
theorem hash2i_deterministic_and_in_unit_witness :
    hash2i 3 (-7) 1337 = hash2i 3 (-7) 1337 ∧
    0 ≤ hash2i 3 (-7) 1337 ∧ hash2i 3 (-7) 1337 ≤ 1 :=
  hash2i_deterministic_and_in_unit 3 (-7) 1337 3 (-7) 1337 rfl rfl rfl

/-- C6 counterexample: at (x, y, seed) = (0, 0, 3143293654) the hash returns
exactly 1, so the result does not always lie in the half-open interval [0,1). -/
theorem hash2i_attains_one : hash2i 0 0 3143293654 = 1 ∧ ¬ hash2i 0 0 3143293654 < 1 := by
  have h : hash2iU32 0 0 3143293654 = 4294967295 := by decide
  constructor
  · unfold hash2i
    rw [h]
    norm_num
  · unfold hash2i
    rw [h]
    norm_num

set_option maxRecDepth 8000 in
set_option maxHeartbeats 1000000 in
/-- C5: evaluating `bitmapToAlphaMaskCanvas` at the failing input. With
threshold 0, an all-black pixel yields alpha 0 as claimed, but an all-white
pixel (255,255,255) yields alpha 254, not 255: binary64 arithmetic evaluates
`0.2126*255 + 0.7152*255 + 0.0722*255` to 254.99999999999997, and `| 0`
truncates it to 254 — contradicting the source comment "white → 255". -/
theorem bitmapToAlphaMask_white_gives_254 :
    bitmapToAlphaMaskPixel 255 255 255 0 = (0, 0, 0, 254) ∧
    bitmapToAlphaMaskPixel 0 0 0 0 = (0, 0, 0, 0) ∧
    jsLum 255 255 255 = 8972014882652159 / 35184372088832 ∧
    (bitmapToAlphaMaskPixel 255 255 255 0).2.2.2 ≠ 255 := by
  have e1 : fl53 (c2126 * (255 : ℚ)) = 7629801456207397 / 140737488355328 := by
    norm_num [fl53, dExp, dExpAux, c2126]
  have e2 : fl53 (c7152 * (255 : ℚ)) = 802098130509103 / 4398046511104 := by
    norm_num [fl53, dExp, dExpAux, c7152]
  have e3 : fl53 (c0722 * (255 : ℚ)) = 323889737263743 / 17592186044416 := by
    norm_num [fl53, dExp, dExpAux, c0722]
  have e4 : fl53 ((7629801456207397 / 140737488355328 : ℚ) + 802098130509103 / 4398046511104) =
      8324235408124673 / 35184372088832 := by
    norm_num [fl53, dExp, dExpAux]
  have e5 : fl53 ((8324235408124673 / 35184372088832 : ℚ) + 323889737263743 / 17592186044416) =
      8972014882652159 / 35184372088832 := by
    norm_num [fl53, dExp, dExpAux]
  have hlum : jsLum 255 255 255 = 8972014882652159 / 35184372088832 := by
    unfold jsLum
    push_cast
    rw [e1, e2, e3]
    rw [show (7629801456207397 / 140737488355328 : ℚ) + 802098130509103 / 4398046511104 =
      (7629801456207397 / 140737488355328 + 802098130509103 / 4398046511104 : ℚ) from rfl] at e4
    rw [e4]
    exact e5
  have hlum0 : jsLum 0 0 0 = 0 := by
    norm_num [jsLum, fl53, c2126, c7152, c0722]
  have htr : jsTrunc (8972014882652159 / 35184372088832 : ℚ) = 254 := by
    unfold jsTrunc
    rw [if_neg (by norm_num), Int.floor_eq_iff]
    norm_num
  constructor
  · simp only [bitmapToAlphaMaskPixel, hlum, htr]
    norm_num
  constructor
  · simp only [bitmapToAlphaMaskPixel, hlum0]
    norm_num [jsTrunc]
  constructor
  · exact hlum
  · simp only [bitmapToAlphaMaskPixel, hlum, htr]
    norm_num

/-- C1 counterexample: halfway through the fade (t = 1/2, i.e. 190ms after
start) the code draws the Preview with globalAlpha 1 - t² = 3/4, not
(1-t)² = 1/4 as the claim states, and the displayed pixel differs from the
claimed formula on a concrete Preview/Final pixel pair. -/
theorem fade_preview_alpha_counterexample :
    1 - fadeT 190 0 * fadeT 190 0 ≠ (1 - fadeT 190 0) * (1 - fadeT 190 0) ∧
    fadeFrame ⟨1, 1, 1, 1⟩ ⟨0, 0, 0, 1⟩ 190 0 ≠ specFadeFrame ⟨1, 1, 1, 1⟩ ⟨0, 0, 0, 1⟩ 190 0 := by
  have ht : fadeT 190 0 = 1 / 2 := by
    unfold fadeT fadeDURATION
    norm_num
  constructor
  · rw [ht]
    norm_num
  · rw [show (190 : ℚ) = 0 + 190 from by norm_num] at ht ⊢
    simp only [fadeFrame, specFadeFrame, drawImageOver, ht, Px.mk.injEq]
    norm_num

/-- C1 amended: when a Preview buffer exists, the transition to Final
crossfades over a fixed 380ms duration, drawing the Preview with alpha
1 - t² (not (1-t)²) and the Final with alpha t² at normalized time t;
consequently at t=0 the displayed pixel equals the Preview pixel and at
t=1 it equals the Final pixel, exactly. -/
theorem fade_duration_and_endpoints (prev fin : Px) (start : ℚ) :
    fadeDURATION = 380 ∧
    fadeFrame prev fin start start = prev ∧
    fadeFrame prev fin (start + 380) start = fin ∧
    (fadeFrame ⟨1, 1, 1, 1⟩ ⟨0, 0, 0, 0⟩ (start + 190) start).a = 3 / 4 := by
  obtain ⟨pr, pg, pb, pa⟩ := prev
  obtain ⟨fr, fg, fb, fa⟩ := fin
  have h0 : fadeT start start = 0 := by
    unfold fadeT
    rw [sub_self, zero_div]
    exact min_eq_right zero_le_one
  have h1 : fadeT (start + 380) start = 1 := by
    unfold fadeT fadeDURATION
    rw [add_sub_cancel_left]
    norm_num
  have hh : fadeT (start + 190) start = 1 / 2 := by
    unfold fadeT fadeDURATION
    rw [add_sub_cancel_left]
    norm_num
  refine ⟨rfl, ?_, ?_, ?_⟩
  · simp [fadeFrame, drawImageOver, h0]
  · simp [fadeFrame, drawImageOver, h1]
  · simp [fadeFrame, drawImageOver, hh]
    norm_num

/-- C2: the final-stage classification tests point-in-mask membership in
the fixed priority order hair, then headband (only when active), then beak,
then feet, falling through to body when none match; in particular a tile at
a point covered by both the hair and the beak masks always classifies as
hair, never beak. -/
theorem classifyTile_priority (hb : Bool) (hd hbd bk ft : ℤ → ℕ) (w h : ℕ) (x y : ℚ) :
    (insideMask hd w h x y = true → classifyTile hb hd hbd bk ft w h x y = Region.hair) ∧
    (insideMask hd w h x y = false → (hb && insideMask hbd w h x y) = true →
      classifyTile hb hd hbd bk ft w h x y = Region.headband) ∧
    (insideMask hd w h x y = false → (hb && insideMask hbd w h x y) = false →
      insideMask bk w h x y = true → classifyTile hb hd hbd bk ft w h x y = Region.beak) ∧
    (insideMask hd w h x y = false → (hb && insideMask hbd w h x y) = false →
      insideMask bk w h x y = false → insideMask ft w h x y = true →
      classifyTile hb hd hbd bk ft w h x y = Region.feet) ∧
    (insideMask hd w h x y = false → (hb && insideMask hbd w h x y) = false →
      insideMask bk w h x y = false → insideMask ft w h x y = false →
      classifyTile hb hd hbd bk ft w h x y = Region.body) ∧
    (insideMask hd w h x y = true → insideMask bk w h x y = true →
      classifyTile hb hd hbd bk ft w h x y = Region.hair) := by
  unfold classifyTile
  refine ⟨?_, ?_, ?_, ?_, ?_, ?_⟩
  · intro h1
    simp [h1]
  · intro h1 h2
    simp [h1, h2]
  · intro h1 h2 h3
    simp [h1, h2, h3]
  · intro h1 h2 h3 h4
    simp [h1, h2, h3, h4]
  · intro h1 h2 h3 h4
    simp [h1, h2, h3, h4]
  · intro h1 _
    simp [h1]

/-- C2 witness: on 4×4 masks where the hair and beak masks are everywhere
opaque, the tile at (0,0) classifies as hair. -/
theorem classifyTile_priority_witness :
    insideMask (fun _ => 1) 4 4 0 0 = true ∧ insideMask (fun _ => 1) 4 4 0 0 = true ∧
    classifyTile false (fun _ => 1) (fun _ => 0) (fun _ => 1) (fun _ => 0) 4 4 0 0 =
      Region.hair :=
  ⟨by norm_num [insideMask, jsRound], by norm_num [insideMask, jsRound],
   (classifyTile_priority false (fun _ => 1) (fun _ => 0) (fun _ => 1) (fun _ => 0) 4 4 0 0).2.2.2.2.2
     (by norm_num [insideMask, jsRound]) (by norm_num [insideMask, jsRound])⟩

/-- C3: given that the outline mask is present, the static outline glow pass
is drawn into the Final composite exactly when the energy phase is not
active: it is present for population below the activation threshold and
absent for population at or above it. -/
theorem staticOutline_iff_below_cap (hb : Bool) (total CAP : ℕ) :
    (total < CAP → FinalPass.staticOutlineGlow ∈ finalPasses hb true total CAP) ∧
    (CAP ≤ total → FinalPass.staticOutlineGlow ∉ finalPasses hb true total CAP) := by
  constructor
  · intro hlt
    have hact : energyActive total CAP = false := by
      simp only [energyActive, decide_eq_false_iff_not]
      omega
    rcases hb <;> simp [finalPasses, hact]
  · intro hge
    have hact : energyActive total CAP = true := by
      simp [energyActive, hge]
    rcases hb <;> simp [finalPasses, hact]

/-- C3 witness: with population 500 and threshold 3500 the static outline
pass is present; with population 4000 it is absent. -/
theorem staticOutline_iff_below_cap_witness :
    FinalPass.staticOutlineGlow ∈ finalPasses false true 500 3500 ∧
    FinalPass.staticOutlineGlow ∉ finalPasses false true 4000 3500 :=
  ⟨(staticOutline_iff_below_cap false 500 3500).1 (by norm_num),
   (staticOutline_iff_below_cap false 4000 3500).2 (by norm_num)⟩

theorem jsRound_mono {p q : ℚ} (h : p ≤ q) : jsRound p ≤ jsRound q :=
  Int.floor_le_floor (by linarith)

theorem jsRound_le_of_add_half_lt {q : ℚ} {n : ℤ} (h : q + 1 / 2 < (n : ℚ) + 1) :
    jsRound q ≤ n := by
  unfold jsRound
  rw [Int.floor_le_iff]
  linarith

theorem jsRound_520 : jsRound (520 : ℚ) = 520 := by
  unfold jsRound
  rw [Int.floor_eq_iff]
  norm_num

/-- C4 amended: the energy working resolution has long edge at most
`max 520 (round(0.7 * plan long edge))`: the cap of 520 holds exactly when
the plan long edge is at most 743, because the downscale factor is clamped
below at 0.7 and is therefore not independent of the plan resolution. -/
theorem energy_longEdge_bound (w h : ℕ) (hw : 1 ≤ w) (hh : 1 ≤ h) :
    max (energyW w h) (energyH w h) ≤
      max 520 (jsRound ((7 / 10) * ((max w h : ℕ) : ℚ))) ∧
    (max w h ≤ 743 → max (energyW w h) (energyH w h) ≤ 520) := by
  have hm1 : 1 ≤ max w h := le_trans hw (le_max_left w h)
  have hmq : (0 : ℚ) < ((max w h : ℕ) : ℚ) := by exact_mod_cast hm1
  have hs0 : 0 ≤ energyScale w h :=
    le_trans (by norm_num : (0 : ℚ) ≤ 7 / 10) (le_max_left _ _)
  have key : ∀ d : ℕ, d ≤ max w h →
      (d : ℚ) * energyScale w h ≤ max (520 : ℚ) (7 / 10 * ((max w h : ℕ) : ℚ)) := by
    intro d hd
    have hdm : (d : ℚ) ≤ ((max w h : ℕ) : ℚ) := by exact_mod_cast hd
    have h1 : (d : ℚ) * energyScale w h ≤ ((max w h : ℕ) : ℚ) * energyScale w h :=
      mul_le_mul_of_nonneg_right hdm hs0
    refine le_trans h1 ?_
    unfold energyScale
    rcases max_cases (7 / 10 : ℚ) (min 1 (520 / ((max w h : ℕ) : ℚ))) with ⟨he, _⟩ | ⟨he, _⟩
    · rw [he, mul_comm]
      exact le_max_right _ _
    · rw [he]
      have h2 : min (1 : ℚ) (520 / ((max w h : ℕ) : ℚ)) ≤ 520 / ((max w h : ℕ) : ℚ) :=
        min_le_right _ _
      have h3 : ((max w h : ℕ) : ℚ) * min 1 (520 / ((max w h : ℕ) : ℚ)) ≤
          ((max w h : ℕ) : ℚ) * (520 / ((max w h : ℕ) : ℚ)) :=
        mul_le_mul_of_nonneg_left h2 (le_of_lt hmq)
      have h4 : ((max w h : ℕ) : ℚ) * (520 / ((max w h : ℕ) : ℚ)) = 520 := by
        field_simp
      rw [h4] at h3
      exact le_trans h3 (le_max_left _ _)
  have dimBound : ∀ d : ℕ, d ≤ max w h →
      max 1 (jsRound ((d : ℚ) * energyScale w h)) ≤
        max 520 (jsRound ((7 / 10) * ((max w h : ℕ) : ℚ))) := by
    intro d hd
    apply max_le
    · exact le_trans (by norm_num : (1 : ℤ) ≤ 520) (le_max_left _ _)
    · have h1 := key d hd
      rcases le_total (520 : ℚ) (7 / 10 * ((max w h : ℕ) : ℚ)) with hc | hc
      · rw [max_eq_right hc] at h1
        exact le_trans (jsRound_mono h1) (le_max_right _ _)
      · rw [max_eq_left hc] at h1
        exact le_trans (le_trans (jsRound_mono h1) (le_of_eq jsRound_520)) (le_max_left _ _)
  constructor
  · exact max_le (dimBound w (le_max_left w h)) (dimBound h (le_max_right w h))
  · intro h743
    have h743q : ((max w h : ℕ) : ℚ) ≤ 743 := by exact_mod_cast h743
    have dim520 : ∀ d : ℕ, d ≤ max w h →
        max 1 (jsRound ((d : ℚ) * energyScale w h)) ≤ 520 := by
      intro d hd
      apply max_le (by norm_num)
      apply jsRound_le_of_add_half_lt
      have h1 := key d hd
      have h2 : (7 / 10 : ℚ) * ((max w h : ℕ) : ℚ) ≤ 5201 / 10 := by linarith
      have h3 : max (520 : ℚ) (7 / 10 * ((max w h : ℕ) : ℚ)) ≤ 5201 / 10 :=
        max_le (by norm_num) h2
      push_cast
      linarith
    exact max_le (dim520 w (le_max_left w h)) (dim520 h (le_max_right w h))

/-- C4 witness: the amended bound applied at a 600 × 400 plan, whose energy
buffer long edge is capped at 520. -/
theorem energy_longEdge_bound_witness :
    max (energyW 600 400) (energyH 600 400) ≤ 520 :=
  (energy_longEdge_bound 600 400 (by norm_num) (by norm_num)).2 (by norm_num)

/-- C4 counterexample: at plan resolution 1000 × 1000 the scale clamps to
0.7 and the energy buffer is 700 × 700, so its long edge exceeds 520 and is
not independent of the plan resolution. -/
theorem energy_cap_exceeded_at_1000 :
    energyW 1000 1000 = 700 ∧ energyH 1000 1000 = 700 ∧
    ¬ max (energyW 1000 1000) (energyH 1000 1000) ≤ 520 := by
  have hs : energyScale 1000 1000 = 7 / 10 := by
    unfold energyScale
    rw [max_self]
    rw [show ((1000 : ℕ) : ℚ) = 1000 from by norm_num]
    rw [show (520 / 1000 : ℚ) = 13 / 25 from by norm_num]
    rw [min_eq_right (by norm_num), max_eq_left (by norm_num)]
  have hr : jsRound ((1000 : ℚ) * (7 / 10)) = 700 := by
    unfold jsRound
    rw [show ((1000 : ℚ) * (7 / 10) + 1 / 2) = 1401 / 2 from by norm_num]
    rw [Int.floor_eq_iff]
    norm_num
  have hW : energyW 1000 1000 = 700 := by
    unfold energyW
    rw [hs]
    rw [show (((1000 : ℕ) : ℚ)) = 1000 from by norm_num, hr]
    norm_num
  have hH : energyH 1000 1000 = 700 := by
    unfold energyH
    rw [hs]
    rw [show (((1000 : ℕ) : ℚ)) = 1000 from by norm_num, hr]
    norm_num
  refine ⟨hW, hH, ?_⟩
  rw [hW, hH, max_self]
  norm_num

/-- C8: with the reduced-motion preference, the energy effect renders
exactly one frame and never schedules another, so after any number of
animation ticks the frame count is still 1; without the preference, the
loop re-schedules itself every tick and the frame count after n ticks is n. -/
theorem energy_reduced_motion_single_frame (n : ℕ) :
    (energyTick^[n] (energyEffectStart true)).frames = 1 ∧
    (energyTick^[n] (energyEffectStart true)).scheduled = false ∧
    (energyTick^[n] (energyEffectStart false)).frames = n ∧
    (energyTick^[n] (energyEffectStart false)).scheduled = true := by
  induction n with
  | zero => simp [energyEffectStart]
  | succ k ih =>
    obtain ⟨h1, h2, h3, h4⟩ := ih
    rw [Function.iterate_succ_apply', Function.iterate_succ_apply']
    refine ⟨?_, ?_, ?_, ?_⟩
    · simp [energyTick, h1, h2]
    · simp [energyTick, h2]
    · simp [energyTick, h3, h4]
    · simp [energyTick, h4]

theorem outlineIdx_bounds (n : ℕ) (hn : 1 ≤ n) (q : ℚ) :
    0 ≤ outlineIdx n q ∧ outlineIdx n q ≤ (n : ℤ) - 1 := by
  have hn' : (1 : ℤ) ≤ (n : ℤ) := by exact_mod_cast hn
  unfold outlineIdx
  split_ifs with h1 h2
  · exact ⟨le_refl 0, by omega⟩
  · exact ⟨by omega, le_refl _⟩
  · push_neg at h1 h2
    unfold jsTrunc
    rw [if_neg (not_lt.mpr h1)]
    refine ⟨Int.floor_nonneg.mpr h1, ?_⟩
    have hcast : ((n : ℚ) - 1) = (((n : ℤ) - 1 : ℤ) : ℚ) := by push_cast; ring
    have := Int.floor_le_floor (α := ℚ) h2
    rwa [hcast, Int.floor_intCast] at this

/-- C9: outline-mask sampling is total. For every rational input coordinate,
including negative values and values beyond the mask extent, the sampler
clamps the integer indices into [0, outW-1] x [0, outH-1] before reading,
so the flat index it reads lies in [0, 4*outW*outH) - a valid byte of the
RGBA buffer. -/
theorem sampleOutline_clamped_in_bounds (outData : ℤ → ℕ) (outW outH : ℕ) (x y : ℚ)
    (hw : 1 ≤ outW) (hh : 1 ≤ outH) :
    0 ≤ outlineIdx outW x ∧ outlineIdx outW x ≤ (outW : ℤ) - 1 ∧
    0 ≤ outlineIdx outH y ∧ outlineIdx outH y ≤ (outH : ℤ) - 1 ∧
    0 ≤ (outlineIdx outH y * (outW : ℤ) + outlineIdx outW x) * 4 + 3 ∧
    (outlineIdx outH y * (outW : ℤ) + outlineIdx outW x) * 4 + 3 < 4 * (outW : ℤ) * outH ∧
    sampleOutlineAlphaNearest outData outW outH x y =
      outData ((outlineIdx outH y * (outW : ℤ) + outlineIdx outW x) * 4 + 3) := by
  obtain ⟨hx0, hx1⟩ := outlineIdx_bounds outW hw x
  obtain ⟨hy0, hy1⟩ := outlineIdx_bounds outH hh y
  have hWz : (1 : ℤ) ≤ (outW : ℤ) := by exact_mod_cast hw
  have hHz : (1 : ℤ) ≤ (outH : ℤ) := by exact_mod_cast hh
  have hyW : outlineIdx outH y * (outW : ℤ) ≤ ((outH : ℤ) - 1) * (outW : ℤ) :=
    mul_le_mul_of_nonneg_right hy1 (by omega)
  refine ⟨hx0, hx1, hy0, hy1, ?_, ?_, rfl⟩
  · have h0 : 0 ≤ outlineIdx outH y * (outW : ℤ) := mul_nonneg hy0 (by omega)
    omega
  · nlinarith [hyW, hx1, hWz, hHz]

/-- C9 witness: on a 3x3 mask, sampling at the far out-of-range coordinates
(-7.3, 99.9) reads a flat index within the 36-byte buffer. -/
theorem sampleOutline_clamped_in_bounds_witness :
    (outlineIdx 3 (999 / 10) * (3 : ℤ) + outlineIdx 3 (-73 / 10)) * 4 + 3 < 4 * (3 : ℤ) * 3 :=
  (sampleOutline_clamped_in_bounds (fun _ => 0) 3 3 (-73 / 10) (999 / 10)
    (by norm_num) (by norm_num)).2.2.2.2.2.1

theorem clamp01_nonneg (q : ℚ) : 0 ≤ clamp01 q := by
  unfold clamp01
  split_ifs <;> linarith

theorem clamp01_le_one (q : ℚ) : clamp01 q ≤ 1 := by
  unfold clamp01
  split_ifs <;> linarith

theorem jsTrunc_nonneg {q : ℚ} (h : 0 ≤ q) : 0 ≤ jsTrunc q := by
  unfold jsTrunc
  rw [if_neg (not_lt.mpr h)]
  exact Int.floor_nonneg.mpr h

theorem jsTrunc_le_int {q : ℚ} {n : ℤ} (h0 : 0 ≤ q) (h : q ≤ (n : ℚ)) : jsTrunc q ≤ n := by
  unfold jsTrunc
  rw [if_neg (not_lt.mpr h0)]
  have := Int.floor_le_floor (α := ℚ) h
  rwa [Int.floor_intCast] at this

theorem jsTrunc_clamp01_mul_255_mem (q : ℚ) :
    0 ≤ jsTrunc (clamp01 q * 255) ∧ jsTrunc (clamp01 q * 255) ≤ 255 :=
  ⟨jsTrunc_nonneg (mul_nonneg (clamp01_nonneg q) (by norm_num)),
   jsTrunc_le_int (mul_nonneg (clamp01_nonneg q) (by norm_num))
     (by
       calc clamp01 q * 255 ≤ 1 * 255 :=
              mul_le_mul_of_nonneg_right (clamp01_le_one q) (by norm_num)
         _ = ((255 : ℤ) : ℚ) := by norm_num)⟩

/-- C7: every pixel the energy-mask compositor writes is either fully
transparent or pure white with an alpha byte in [0, 255]: if the sampled
outline alpha at the displaced, rescaled coordinate is exactly 0 the output
is (0,0,0,0); otherwise the color channels are fixed at 255 and only the
alpha channel carries the intensity. This holds for every interpretation of
the ambient `Math.sin` / `Math.pow` and every buffer content. -/
theorem energyMask_transparent_or_white (M : JsMath) (outData : ℤ → ℕ) (outW outH : ℕ)
    (nData : ℤ → ℕ) (nRes w h : ℕ) (tSec amp gain cut sharpPow : ℚ) (x y : ℕ) :
    (energySampledAlpha M outData outW outH nData nRes w h tSec amp x y = 0 →
      energyMaskPixel M outData outW outH nData nRes w h tSec amp gain cut sharpPow x y =
        (0, 0, 0, 0)) ∧
    (energySampledAlpha M outData outW outH nData nRes w h tSec amp x y ≠ 0 →
      (energyMaskPixel M outData outW outH nData nRes w h tSec amp gain cut sharpPow x y).1 =
          255 ∧
      (energyMaskPixel M outData outW outH nData nRes w h tSec amp gain cut sharpPow x y).2.1 =
          255 ∧
      (energyMaskPixel M outData outW outH nData nRes w h tSec amp gain cut
            sharpPow x y).2.2.1 = 255 ∧
      0 ≤ (energyMaskPixel M outData outW outH nData nRes w h tSec amp gain cut
            sharpPow x y).2.2.2 ∧
      (energyMaskPixel M outData outW outH nData nRes w h tSec amp gain cut
            sharpPow x y).2.2.2 ≤ 255) := by
  constructor
  · intro h0
    unfold energyMaskPixel
    rw [if_pos h0]
  · intro hne
    unfold energyMaskPixel
    rw [if_neg hne]
    exact ⟨rfl, rfl, rfl, (jsTrunc_clamp01_mul_255_mem _).1, (jsTrunc_clamp01_mul_255_mem _).2⟩

/-- C7 witness: with an all-zero outline buffer the pixel at (0,0) is fully
transparent; with an outline buffer of alpha 7 everywhere its red channel
is 255 (the zero math oracle interprets sin and pow). -/
theorem energyMask_transparent_or_white_witness :
    energyMaskPixel ⟨fun _ => 0, fun _ _ => 0⟩ (fun _ => 0) 2 2 (fun _ => 0) 2 2 2 0 1 1 1 1 0 0 =
      (0, 0, 0, 0) ∧
    (energyMaskPixel ⟨fun _ => 0, fun _ _ => 0⟩ (fun _ => 7) 2 2 (fun _ => 0) 2 2 2 0 1 1 1 1
      0 0).1 = 255 :=
  ⟨(energyMask_transparent_or_white _ _ _ _ _ _ _ _ _ _ _ _ _ _ _).1 rfl,
   ((energyMask_transparent_or_white _ _ _ _ _ _ _ _ _ _ _ _ _ _ _).2
     (by simp [energySampledAlpha, sampleOutlineAlphaNearest])).1⟩

theorem bilinear_bound (d00 d10 d01 d11 : ℕ) (tx ty : ℚ)
    (h00 : d00 ≤ 255) (h10 : d10 ≤ 255) (h01 : d01 ≤ 255) (h11 : d11 ≤ 255)
    (htx0 : 0 ≤ tx) (htx1 : tx ≤ 1) (hty0 : 0 ≤ ty) (hty1 : ty ≤ 1) :
    0 ≤ ((d00 : ℚ) * ((1 - tx) * (1 - ty)) + (d10 : ℚ) * (tx * (1 - ty)) +
         (d01 : ℚ) * ((1 - tx) * ty) + (d11 : ℚ) * (tx * ty)) / 255 ∧
    ((d00 : ℚ) * ((1 - tx) * (1 - ty)) + (d10 : ℚ) * (tx * (1 - ty)) +
         (d01 : ℚ) * ((1 - tx) * ty) + (d11 : ℚ) * (tx * ty)) / 255 ≤ 1 := by
  have c00 : (d00 : ℚ) ≤ 255 := by exact_mod_cast h00
  have c10 : (d10 : ℚ) ≤ 255 := by exact_mod_cast h10
  have c01 : (d01 : ℚ) ≤ 255 := by exact_mod_cast h01
  have c11 : (d11 : ℚ) ≤ 255 := by exact_mod_cast h11
  have w00 : (0 : ℚ) ≤ (1 - tx) * (1 - ty) := mul_nonneg (by linarith) (by linarith)
  have w10 : (0 : ℚ) ≤ tx * (1 - ty) := mul_nonneg htx0 (by linarith)
  have w01 : (0 : ℚ) ≤ (1 - tx) * ty := mul_nonneg (by linarith) hty0
  have w11 : (0 : ℚ) ≤ tx * ty := mul_nonneg htx0 hty0
  have hsum : (1 - tx) * (1 - ty) + tx * (1 - ty) + (1 - tx) * ty + tx * ty = 1 := by ring
  constructor
  · apply div_nonneg _ (by norm_num)
    have t00 : (0 : ℚ) ≤ (d00 : ℚ) * ((1 - tx) * (1 - ty)) :=
      mul_nonneg (Nat.cast_nonneg _) w00
    have t10 : (0 : ℚ) ≤ (d10 : ℚ) * (tx * (1 - ty)) := mul_nonneg (Nat.cast_nonneg _) w10
    have t01 : (0 : ℚ) ≤ (d01 : ℚ) * ((1 - tx) * ty) := mul_nonneg (Nat.cast_nonneg _) w01
    have t11 : (0 : ℚ) ≤ (d11 : ℚ) * (tx * ty) := mul_nonneg (Nat.cast_nonneg _) w11
    linarith
  · rw [div_le_one (by norm_num)]
    have b00 : (d00 : ℚ) * ((1 - tx) * (1 - ty)) ≤ 255 * ((1 - tx) * (1 - ty)) :=
      mul_le_mul_of_nonneg_right c00 w00
    have b10 : (d10 : ℚ) * (tx * (1 - ty)) ≤ 255 * (tx * (1 - ty)) :=
      mul_le_mul_of_nonneg_right c10 w10
    have b01 : (d01 : ℚ) * ((1 - tx) * ty) ≤ 255 * ((1 - tx) * ty) :=
      mul_le_mul_of_nonneg_right c01 w01
    have b11 : (d11 : ℚ) * (tx * ty) ≤ 255 * (tx * ty) :=
      mul_le_mul_of_nonneg_right c11 w11
    linarith

theorem bilin_mem_unit (data : ℤ → ℕ) (res : ℕ) (u v : ℚ) (ch : ℕ)
    (hdata : ∀ i, data i ≤ 255) :
    0 ≤ bilin data res u v ch ∧ bilin data res u v ch ≤ 1 := by
  have htx0 : (0 : ℚ) ≤ u * ((res : ℚ) - 1) - (⌊u * ((res : ℚ) - 1)⌋ : ℚ) := by
    have := Int.floor_le (u * ((res : ℚ) - 1))
    linarith
  have htx1 : u * ((res : ℚ) - 1) - (⌊u * ((res : ℚ) - 1)⌋ : ℚ) ≤ 1 := by
    have := Int.lt_floor_add_one (u * ((res : ℚ) - 1))
    linarith
  have hty0 : (0 : ℚ) ≤ v * ((res : ℚ) - 1) - (⌊v * ((res : ℚ) - 1)⌋ : ℚ) := by
    have := Int.floor_le (v * ((res : ℚ) - 1))
    linarith
  have hty1 : v * ((res : ℚ) - 1) - (⌊v * ((res : ℚ) - 1)⌋ : ℚ) ≤ 1 := by
    have := Int.lt_floor_add_one (v * ((res : ℚ) - 1))
    linarith
  exact bilinear_bound _ _ _ _ _ _ (hdata _) (hdata _) (hdata _) (hdata _) htx0 htx1 hty0 hty1

theorem bilin_const (b : ℕ) (res : ℕ) (u v : ℚ) (ch : ℕ) :
    bilin (fun _ => b) res u v ch = (b : ℚ) / 255 := by
  simp only [bilin]
  ring

theorem packDisp_le (c : ℚ) : packDisp c ≤ 255 := by
  unfold packDisp clampByte
  split_ifs with h1 h2
  · norm_num
  · exact le_refl 255
  · omega

/-- C10: decoding the packed turbulence field always yields displacement
components in [-1,1] and spark/filament intensities in [0,1], for every
byte content of the buffer; and because the packing byte saturates (the
curl-rotated components can exceed 1 in magnitude), encode-then-decode
reproduces a displacement component up to the quantization step 2/255 for
components in [-1,1], pins components beyond 1 (resp. below -1) to exactly
1 (resp. -1), and any component reproduced within quantization must itself
lie within 2/255 of [-1,1]. -/
theorem saberField_decode_range_and_saturation (data : ℤ → ℕ) (res : ℕ) (u v c : ℚ)
    (hdata : ∀ i, data i ≤ 255) (hres : 1 ≤ res)
    (hu0 : 0 ≤ u) (hu1 : u ≤ 1) (hv0 : 0 ≤ v) (hv1 : v ≤ 1) :
    (-1 ≤ (sampleSaberField data res u v).dx ∧ (sampleSaberField data res u v).dx ≤ 1) ∧
    (-1 ≤ (sampleSaberField data res u v).dy ∧ (sampleSaberField data res u v).dy ≤ 1) ∧
    (0 ≤ (sampleSaberField data res u v).spark ∧ (sampleSaberField data res u v).spark ≤ 1) ∧
    (0 ≤ (sampleSaberField data res u v).fil ∧ (sampleSaberField data res u v).fil ≤ 1) ∧
    (-1 ≤ c → c ≤ 1 →
      |(sampleSaberField (fun _ => (packDisp c : ℕ)) 2 0 0).dx - c| ≤ 2 / 255) ∧
    (1 < c → (sampleSaberField (fun _ => (packDisp c : ℕ)) 2 0 0).dx = 1) ∧
    (c < -1 → (sampleSaberField (fun _ => (packDisp c : ℕ)) 2 0 0).dx = -1) ∧
    (|(sampleSaberField (fun _ => (packDisp c : ℕ)) 2 0 0).dx - c| ≤ 2 / 255 →
      -1 - 2 / 255 ≤ c ∧ c ≤ 1 + 2 / 255) := by
  obtain ⟨h00, h01⟩ := bilin_mem_unit data res u v 0 hdata
  obtain ⟨h10, h11⟩ := bilin_mem_unit data res u v 1 hdata
  obtain ⟨h20, h21⟩ := bilin_mem_unit data res u v 2 hdata
  obtain ⟨h30, h31⟩ := bilin_mem_unit data res u v 3 hdata
  have hdxe : (sampleSaberField data res u v).dx = bilin data res u v 0 * 2 - 1 := rfl
  have hdye : (sampleSaberField data res u v).dy = bilin data res u v 1 * 2 - 1 := rfl
  have hspe : (sampleSaberField data res u v).spark = bilin data res u v 2 := rfl
  have hfie : (sampleSaberField data res u v).fil = bilin data res u v 3 := rfl
  have hdec : (sampleSaberField (fun _ => (packDisp c : ℕ)) 2 0 0).dx =
      (packDisp c : ℚ) / 255 * 2 - 1 := by
    have : (sampleSaberField (fun _ => (packDisp c : ℕ)) 2 0 0).dx =
        bilin (fun _ => (packDisp c : ℕ)) 2 0 0 0 * 2 - 1 := rfl
    rw [this, bilin_const]
  have hAeq : (c * (1 / 2) + 1 / 2) * 255 = 255 / 2 * c + 255 / 2 := by ring
  refine ⟨⟨by rw [hdxe]; linarith, by rw [hdxe]; linarith⟩,
          ⟨by rw [hdye]; linarith, by rw [hdye]; linarith⟩,
          ⟨by rw [hspe]; exact h20, by rw [hspe]; exact h21⟩,
          ⟨by rw [hfie]; exact h30, by rw [hfie]; exact h31⟩, ?_, ?_, ?_, ?_⟩
  · intro hc1 hc2
    have hA0 : (0 : ℚ) ≤ (c * (1 / 2) + 1 / 2) * 255 := by rw [hAeq]; linarith
    have hA255 : (c * (1 / 2) + 1 / 2) * 255 ≤ 255 := by rw [hAeq]; linarith
    have hE : jsTrunc ((c * (1 / 2) + 1 / 2) * 255) = ⌊(c * (1 / 2) + 1 / 2) * 255⌋ := by
      unfold jsTrunc
      rw [if_neg (not_lt.mpr hA0)]
    have hE0 : 0 ≤ ⌊(c * (1 / 2) + 1 / 2) * 255⌋ := Int.floor_nonneg.mpr hA0
    have hE255 : ⌊(c * (1 / 2) + 1 / 2) * 255⌋ ≤ 255 := by
      have h := Int.floor_le_floor (α := ℚ) hA255
      rwa [show ((255 : ℚ)) = ((255 : ℤ) : ℚ) from by norm_num, Int.floor_intCast] at h
    have hpd : packDisp c = (⌊(c * (1 / 2) + 1 / 2) * 255⌋).toNat := by
      unfold packDisp clampByte
      rw [hE, if_neg (not_lt.mpr hE0), if_neg (not_lt.mpr hE255)]
    have hcast : ((packDisp c : ℕ) : ℚ) = (⌊(c * (1 / 2) + 1 / 2) * 255⌋ : ℚ) := by
      rw [hpd]
      exact_mod_cast congrArg (fun z : ℤ => (z : ℚ)) (Int.toNat_of_nonneg hE0)
    have hflo : ((⌊(c * (1 / 2) + 1 / 2) * 255⌋ : ℤ) : ℚ) ≤ (c * (1 / 2) + 1 / 2) * 255 :=
      Int.floor_le _
    have hfhi : (c * (1 / 2) + 1 / 2) * 255 < (⌊(c * (1 / 2) + 1 / 2) * 255⌋ : ℚ) + 1 :=
      Int.lt_floor_add_one _
    rw [hdec, hcast, abs_le]
    rw [hAeq] at hflo hfhi ⊢
    constructor <;> linarith
  · intro hc
    have hA : (255 : ℚ) < (c * (1 / 2) + 1 / 2) * 255 := by rw [hAeq]; linarith
    have hA0 : (0 : ℚ) ≤ (c * (1 / 2) + 1 / 2) * 255 := by linarith
    have hE : jsTrunc ((c * (1 / 2) + 1 / 2) * 255) = ⌊(c * (1 / 2) + 1 / 2) * 255⌋ := by
      unfold jsTrunc
      rw [if_neg (not_lt.mpr hA0)]
    have hE255 : 255 ≤ ⌊(c * (1 / 2) + 1 / 2) * 255⌋ :=
      Int.le_floor.mpr (by push_cast; linarith)
    have hpd : packDisp c = 255 := by
      unfold packDisp clampByte
      rw [hE]
      split_ifs with h1 h2
      · omega
      · rfl
      · omega
    rw [hdec, hpd]
    norm_num
  · intro hc
    have hA : (c * (1 / 2) + 1 / 2) * 255 < 0 := by rw [hAeq]; linarith
    have hz : jsTrunc ((c * (1 / 2) + 1 / 2) * 255) ≤ 0 := by
      unfold jsTrunc
      rw [if_pos hA]
      have : 0 ≤ ⌊-((c * (1 / 2) + 1 / 2) * 255)⌋ := Int.floor_nonneg.mpr (by linarith)
      omega
    have hpd : packDisp c = 0 := by
      unfold packDisp clampByte
      split_ifs with h1 h2
      · rfl
      · omega
      · omega
    rw [hdec, hpd]
    norm_num
  · intro habs
    have hpd255 : packDisp c ≤ 255 := packDisp_le c
    have hq0 : (0 : ℚ) ≤ ((packDisp c : ℕ) : ℚ) := Nat.cast_nonneg _
    have hq255 : ((packDisp c : ℕ) : ℚ) ≤ 255 := by exact_mod_cast hpd255
    rw [hdec, abs_le] at habs
    obtain ⟨hl, hr⟩ := habs
    constructor <;> linarith

/-- C10 witness: on the all-zero 1x1 field the decoded displacement is in
[-1,1], and the component 1/2 survives an encode-decode roundtrip within
the quantization step. -/
theorem saberField_decode_range_and_saturation_witness :
    (-1 ≤ (sampleSaberField (fun _ => 0) 1 0 0).dx ∧
      (sampleSaberField (fun _ => 0) 1 0 0).dx ≤ 1) ∧
    |(sampleSaberField (fun _ => (packDisp (1 / 2) : ℕ)) 2 0 0).dx - 1 / 2| ≤ 2 / 255 :=
  ⟨(saberField_decode_range_and_saturation (fun _ => 0) 1 0 0 (1 / 2)
      (fun _ => by norm_num) le_rfl le_rfl (by norm_num) le_rfl (by norm_num)).1,
   (saberField_decode_range_and_saturation (fun _ => 0) 1 0 0 (1 / 2)
      (fun _ => by norm_num) le_rfl le_rfl (by norm_num) le_rfl
      (by norm_num)).2.2.2.2.1 (by norm_num) (by norm_num)⟩
